import Mathlib

/-!
Formal model of the MoySklad statistics Telegram bot
(`src/moysklad_stat/101_roza_stat.py`): the data-source normalization,
the aggregation engine (`get_sales_stats_with_retail`, `get_daily_summary`),
the period resolver (`get_period_dates`) and the date-entry conversation
handler (`handle_end_date`), together with theorems settling the spec claims.

Modelling conventions:
* Python `Decimal` values are modelled as exact rationals `ℚ`.  The source
  normalizes a raw integer amount `n` of minor units via
  `Decimal(str(n / 100))`; here the amount is modelled as the exact value
  `n / 100 : ℚ` (the float/str round-trip of the source coincides with this
  for all amounts below about 2^53 minor units; the divergence above that is
  recorded separately against the claim on minor-unit conversion).
* Python `dict` (insertion ordered) is modelled as an association list.
* String operations of the source (`split`, `strip`, `strftime`,
  `strptime`) are re-implemented structurally over `String.data`.
* A remote HTTP interaction is an explicit input: `Except Unit ApiResponse`
  (`Except.error` models a transport exception), and the per-counterparty
  secondary fetch of `get_customer_orders_data` is an oracle
  `String → Except Unit (Nat × AgentFull)` from the href to a status code
  and decoded body.
-/

namespace Roza

/-! ### String utilities (structural re-implementations) -/

/-- Split a character list at every occurrence of the separator `c`
(Python `str.split(sep)` semantics: `"".split(sep) = [""]`). -/
def splitChars (c : Char) : List Char → List (List Char)
  | [] => [[]]
  | x :: xs =>
    match splitChars c xs with
    | [] => [[]]
    | g :: gs => if x = c then [] :: g :: gs else (x :: g) :: gs

/-- Split a string on a one-character separator, as Python `s.split(sep)`. -/
def strSplit (c : Char) (s : String) : List String :=
  (splitChars c s.data).map String.mk

/-- Python `s.split('/')[-1]`. -/
def lastSlashPart (s : String) : String :=
  (strSplit '/' s).getLastD ""

/-- Python `s.strip()`: drop whitespace from both ends. -/
def strStrip (s : String) : String :=
  String.mk (((((s.data.dropWhile Char.isWhitespace).reverse).dropWhile
    Char.isWhitespace).reverse))

/-- Numeric value of a digit-character list (most significant first). -/
def digitsVal : List Char → Nat → Nat
  | [], acc => acc
  | c :: cs, acc => digitsVal cs (acc * 10 + (c.toNat - 48))

/-- Parse a non-empty all-digit string of length at most `w`: the
CPython `strptime` day and month directives `%d`/`%m` match 1 or 2
digits (their out-of-range lexical values are rejected later exactly
where the model's calendar validation rejects them). -/
def parseNatUpTo (w : Nat) (s : String) : Option Nat :=
  if s.data ≠ [] ∧ s.data.length ≤ w ∧ s.data.all Char.isDigit then
    some (digitsVal s.data 0)
  else none

/-- Parse an all-digit string of exactly `w` digits: the CPython
`strptime` year directives match at exact width — `%Y` is `\d\d\d\d`
and `%y` is `\d\d`. -/
def parseNatExact (w : Nat) (s : String) : Option Nat :=
  if s.data.length = w ∧ s.data.all Char.isDigit then
    some (digitsVal s.data 0)
  else none

/-- Decimal digits of `n` (auxiliary, fuel-based to stay structural). -/
def natChars : Nat → Nat → List Char
  | 0, _ => []
  | fuel + 1, n =>
    if n < 10 then [Char.ofNat (48 + n)]
    else natChars fuel (n / 10) ++ [Char.ofNat (48 + n % 10)]

/-- Render a natural number in decimal. -/
def natStr (n : Nat) : String := String.mk (natChars (n + 1) n)

/-- Zero-pad to two digits (strftime `%d`, `%m`, `%H`, `%M`, `%S`). -/
def pad2 (n : Nat) : String := if n < 10 then "0" ++ natStr n else natStr n

/-- Zero-pad to four digits (strftime `%Y`). -/
def pad4 (n : Nat) : String :=
  if n < 10 then "000" ++ natStr n
  else if n < 100 then "00" ++ natStr n
  else if n < 1000 then "0" ++ natStr n
  else natStr n

/-! ### Data model: raw rows and normalized records -/

/-- The partial counterparty summary inlined in a transaction row
(`row['agent']` as used by the retail/demand/payment fetches):
`name` is `agent.get('name')`, `metaHref` is
`agent.get('meta', {}).get('href')`, `phone`/`email` are read with the
placeholder default. `none` models an absent key. -/
structure RawAgent where
  name : Option String
  metaHref : Option String
  phone : Option String
  email : Option String

/-- The full counterparty entity returned by the secondary fetch in
`get_customer_orders_data`; every field is read with `.get`. -/
structure AgentFull where
  id : Option String
  name : Option String
  legalTitle : Option String
  companyType : Option String
  code : Option String
  phone : Option String
  email : Option String

/-- One raw row of an API list response. `sum` is the integer minor-unit
amount (`none` models an absent key, `some 0` a zero value — both falsy);
`agent` is `none` when the `agent` key is absent or falsy;
`paymentTypeName` is `row.get('paymentType', {}).get('name')`. -/
structure RawRow where
  id : String
  moment : Option String
  sum : Option Int
  agent : Option RawAgent
  paymentTypeName : Option String

/-- Python truthiness of the raw `sum` value (line `if row.get('sum'):`). -/
def sumTruthy : Option Int → Bool
  | none => false
  | some n => n != 0

/-- The exact monetary value of a raw amount: minor units divided by 100. -/
def amountQ : Option Int → ℚ
  | none => 0
  | some n => (n : ℚ) / 100

/-- Python `a or b` on an optional string (`None` and `''` are falsy). -/
def pyOr (a : Option String) (b : String) : String :=
  match a with
  | none => b
  | some s => if s = "" then b else s

/-- Normalized counterparty attached to a record. -/
structure AgentInfo where
  id : String
  name : String
  phone : String
  email : String
deriving DecidableEq

/-- A normalized customer-order / retail-sale / wholesale-demand record. -/
structure NormRec where
  id : String
  moment : String
  sum : ℚ
  agent : Option AgentInfo
deriving DecidableEq

/-- A normalized incoming-payment record. -/
structure PaymentRec where
  id : String
  moment : String
  sum : ℚ
  agent : Option AgentInfo
  payment_type : String
deriving DecidableEq

/-! ### Data-source client: per-row normalization -/

/-- Truthiness of the optional href string (line `if agent_href:`). -/
def hrefTruthy : Option String → Bool
  | none => false
  | some s => s != ""

/-- The placeholder identity used when the counterparty cannot be
resolved. -/
def placeholderAgent (i : String) : AgentInfo :=
  { id := i, name := "Без имени", phone := "Не указан", email := "Не указан" }

/-- Name resolution of `get_customer_orders_data` over the fully fetched
counterparty: `name or legalTitle or companyType or code or
"Клиент <id[:8]>"`, then `'Без имени'` if still falsy. -/
def agentFullName (a : AgentFull) : String :=
  let n := pyOr a.name (pyOr a.legalTitle (pyOr a.companyType (pyOr a.code
    ("Клиент " ++ String.mk (((a.id.getD "unknown").data).take 8)))))
  if n = "" then "Без имени" else n

/-- `get_customer_orders_data` per-row counterparty resolution: follow the
agent href through the secondary fetch `resolve`, degrading to a
placeholder on non-200 status, transport failure, missing href or missing
agent. -/
def orderAgentInfo (resolve : String → Except Unit (Nat × AgentFull))
    (agent : Option RawAgent) : AgentInfo :=
  match agent with
  | none => placeholderAgent "no_agent"
  | some a =>
    match a.metaHref with
    | none => placeholderAgent "no_href"
    | some href =>
      if href = "" then placeholderAgent "no_href"
      else
        match resolve href with
        | Except.error _ => placeholderAgent (lastSlashPart href)
        | Except.ok (status, full) =>
          if status = 200 then
            { id := full.id.getD "", name := agentFullName full,
              phone := full.phone.getD "Не указан",
              email := full.email.getD "Не указан" }
          else placeholderAgent (lastSlashPart href)

/-- Normalize one customer-order row (amount and resolved agent). -/
def normOrderRow (resolve : String → Except Unit (Nat × AgentFull))
    (r : RawRow) : NormRec :=
  { id := r.id, moment := r.moment.getD "", sum := amountQ r.sum,
    agent := some (orderAgentInfo resolve r.agent) }

/-- Normalize one retail-sale row: the synthetic retail-customer
placeholder is always substituted. -/
def normRetailRow (r : RawRow) : NormRec :=
  { id := r.id, moment := r.moment.getD "", sum := amountQ r.sum,
    agent := some { id := "retail_customer", name := "Розничный клиент",
                    phone := "Не указан", email := "Не указан" } }

/-- Summary-level agent normalization shared by the demand and payment
fetches: id from the href suffix, `'Без имени'` only for a `None` name. -/
def summaryAgentInfo (a : RawAgent) : AgentInfo :=
  { id := lastSlashPart (a.metaHref.getD ""),
    name := match a.name with | none => "Без имени" | some s => s,
    phone := a.phone.getD "Не указан",
    email := a.email.getD "Не указан" }

/-- Normalize one wholesale-demand row (`get_debug_sales_data`). -/
def normDemandRow (r : RawRow) : NormRec :=
  { id := r.id, moment := r.moment.getD "", sum := amountQ r.sum,
    agent := r.agent.map summaryAgentInfo }

/-- Normalize one incoming-payment row. -/
def normPaymentRow (r : RawRow) : PaymentRec :=
  { id := r.id, moment := r.moment.getD "", sum := amountQ r.sum,
    agent := r.agent.map summaryAgentInfo,
    payment_type := r.paymentTypeName.getD "Не указан" }

/-- The row loop shared by all four fetches: rows with a falsy `sum` are
skipped; otherwise the count, the running total and the normalized list
are accumulated. -/
def processRows (norm : RawRow → β) : List RawRow → Nat × ℚ × List β
  | [] => (0, 0, [])
  | r :: rs =>
    let rest := processRows norm rs
    if sumTruthy r.sum then
      (rest.1 + 1, amountQ r.sum + rest.2.1, norm r :: rest.2.2)
    else rest

/-- An API list response: HTTP status and the optional `rows` array. -/
structure ApiResponse where
  status : Nat
  rows : Option (List RawRow)

/-- Shared fetch shape: a transport exception or a non-200 status yields
the empty result `(0, 0, [])`; a missing `rows` key yields the same. -/
def fetchData (norm : RawRow → β) (resp : Except Unit ApiResponse) :
    Nat × ℚ × List β :=
  match resp with
  | Except.error _ => (0, 0, [])
  | Except.ok r =>
    if r.status ≠ 200 then (0, 0, [])
    else
      match r.rows with
      | none => (0, 0, [])
      | some rows => processRows norm rows

/-- `DebugMoySkladClient.get_customer_orders_data`. -/
def get_customer_orders_data (resolve : String → Except Unit (Nat × AgentFull))
    (resp : Except Unit ApiResponse) : Nat × ℚ × List NormRec :=
  fetchData (normOrderRow resolve) resp

/-- `DebugMoySkladClient.get_retail_sales_data`. -/
def get_retail_sales_data (resp : Except Unit ApiResponse) :
    Nat × ℚ × List NormRec :=
  fetchData normRetailRow resp

/-- `DebugMoySkladClient.get_debug_sales_data` (wholesale demand). -/
def get_debug_sales_data (resp : Except Unit ApiResponse) :
    Nat × ℚ × List NormRec :=
  fetchData normDemandRow resp

/-- `DebugMoySkladClient.get_incoming_payments_data`. -/
def get_incoming_payments_data (resp : Except Unit ApiResponse) :
    Nat × ℚ × List PaymentRec :=
  fetchData normPaymentRow resp

/-! ### Association lists (Python insertion-ordered dict) -/

/-- Lookup of the first binding of `k`. -/
def alistFind (k : String) : List (String × α) → Option α
  | [] => none
  | (k1, v) :: rest => if k1 = k then some v else alistFind k rest

/-- Update the first binding of `k` in place, keeping the order. -/
def alistModify (k : String) (f : α → α) : List (String × α) → List (String × α)
  | [] => []
  | (k1, v) :: rest =>
    if k1 = k then (k1, f v) :: rest else (k1, v) :: alistModify k f rest

/-- `dict.values()`: the bound values in insertion order. -/
def alistValues (l : List (String × α)) : List α := l.map Prod.snd

/-! ### Aggregation engine -/

/-- One per-counterparty rollup of `get_sales_stats_with_retail`. -/
structure CustEntry where
  id : String
  name : String
  phone : String
  email : String
  orders : Nat
  total : ℚ
deriving DecidableEq

/-- One grouping step of `get_sales_stats_with_retail`: records without an
agent are skipped; a first-seen counterparty is inserted with a zero
rollup; then the rollup of the record's counterparty is bumped. -/
def ordersStep (acc : List (String × CustEntry)) (order : NormRec) :
    List (String × CustEntry) :=
  match order.agent with
  | none => acc
  | some a =>
    let acc1 :=
      match alistFind a.id acc with
      | some _ => acc
      | none => acc ++ [(a.id, { id := a.id, name := a.name, phone := a.phone,
                                 email := a.email, orders := 0, total := 0 })]
    alistModify a.id
      (fun c => { c with orders := c.orders + 1, total := c.total + order.sum })
      acc1

/-- The per-counterparty grouping of the customer orders (`customers`). -/
def ordersCustomers (l : List NormRec) : List (String × CustEntry) :=
  l.foldl ordersStep []

/-- Stable insertion into a descending-sorted list: keep passing over
strictly greater keys, so that among equal keys earlier input elements
stay first — the behavior of Python `sorted(key=..., reverse=True)`. -/
def insertDesc (key : α → ℚ) (x : α) : List α → List α
  | [] => [x]
  | y :: ys => if key x < key y then y :: insertDesc key x ys else x :: y :: ys

/-- Stable descending sort by `key` (Python
`sorted(xs, key=..., reverse=True)`). -/
def sortDesc (key : α → ℚ) (l : List α) : List α :=
  l.foldr (insertDesc key) []

/-- A `count`/`total`/`avg_order` component of a summary dict. -/
structure Summary3 where
  count : Nat
  total : ℚ
  avg_order : ℚ
deriving DecidableEq

/-- Output shape of `get_sales_stats_with_retail`. -/
structure SalesStats where
  customer_orders : Summary3
  retail : Summary3
  total_sales : Summary3
  customer_count : Nat
  new_customers : Nat
  returning_customers : Nat
  top_customers : List CustEntry
  new_customers_list : List CustEntry
  returning_customers_list : List CustEntry

/-- `DebugMoySkladClient.get_sales_stats_with_retail`, as a pure function
of the two fetch results (count, total, normalized records). -/
def get_sales_stats_with_retail (ordersRes retailRes : Nat × ℚ × List NormRec) :
    SalesStats :=
  let orders_count := ordersRes.1
  let orders_total := ordersRes.2.1
  let orders_data := ordersRes.2.2
  let retail_count := retailRes.1
  let retail_total := retailRes.2.1
  let total_count := orders_count + retail_count
  let total_amount := orders_total + retail_total
  let customers := ordersCustomers orders_data
  let all_customers := alistValues customers
  let top_customers := (sortDesc CustEntry.total all_customers).take 10
  let avg_order := if orders_count > 0 then orders_total / orders_count else 0
  let avg_retail := if retail_count > 0 then retail_total / retail_count else 0
  let avg_total := if total_count > 0 then total_amount / total_count else 0
  let new_customers := all_customers.countP (fun c => c.orders = 1)
  let returning_customers := all_customers.countP (fun c => c.orders > 1)
  { customer_orders := { count := orders_count, total := orders_total,
                         avg_order := avg_order },
    retail := { count := retail_count, total := retail_total,
                avg_order := avg_retail },
    total_sales := { count := total_count, total := total_amount,
                     avg_order := avg_total },
    customer_count := customers.length,
    new_customers := new_customers,
    returning_customers := returning_customers,
    top_customers := top_customers,
    new_customers_list := all_customers.filter (fun c => c.orders = 1),
    returning_customers_list := all_customers.filter (fun c => c.orders > 1) }

/-- Per-customer rollup of `get_daily_summary` (no email field there). -/
structure DailyCust where
  id : String
  name : String
  phone : String
  orders : Nat
  total : ℚ
deriving DecidableEq

/-- Per-payer rollup of `get_daily_summary`. -/
structure Payer where
  id : String
  name : String
  phone : String
  payments : Nat
  total : ℚ
deriving DecidableEq

/-- Grouping step over today's orders in `get_daily_summary`. -/
def dailyCustStep (acc : List (String × DailyCust)) (order : NormRec) :
    List (String × DailyCust) :=
  match order.agent with
  | none => acc
  | some a =>
    let acc1 :=
      match alistFind a.id acc with
      | some _ => acc
      | none => acc ++ [(a.id, { id := a.id, name := a.name, phone := a.phone,
                                 orders := 0, total := 0 })]
    alistModify a.id
      (fun c => { c with orders := c.orders + 1, total := c.total + order.sum })
      acc1

/-- Grouping step over today's payments in `get_daily_summary`. -/
def payerStep (acc : List (String × Payer)) (payment : PaymentRec) :
    List (String × Payer) :=
  match payment.agent with
  | none => acc
  | some a =>
    let acc1 :=
      match alistFind a.id acc with
      | some _ => acc
      | none => acc ++ [(a.id, { id := a.id, name := a.name, phone := a.phone,
                                 payments := 0, total := 0 })]
    alistModify a.id
      (fun c => { c with payments := c.payments + 1,
                         total := c.total + payment.sum })
      acc1

/-- Output shape of `get_daily_summary` (`avg_payment` is the payments
average field of the source dict). -/
structure DailySummary where
  date : String
  customer_orders : Summary3
  retail : Summary3
  total_sales : Summary3
  payments_count : Nat
  payments_total : ℚ
  avg_payment : ℚ
  top_customers : List DailyCust
  top_payers : List Payer
  unique_customers : Nat
  unique_payers : Nat

/-- `DebugMoySkladClient.get_daily_summary`, as a pure function of the
formatted date and the three fetch results for today's range. -/
def get_daily_summary (dateStr : String)
    (ordersRes retailRes : Nat × ℚ × List NormRec)
    (paymentsRes : Nat × ℚ × List PaymentRec) : DailySummary :=
  let orders_count := ordersRes.1
  let orders_total := ordersRes.2.1
  let retail_count := retailRes.1
  let retail_total := retailRes.2.1
  let payments_count := paymentsRes.1
  let payments_total := paymentsRes.2.1
  let total_sales_count := orders_count + retail_count
  let total_sales_amount := orders_total + retail_total
  let customers := ordersRes.2.2.foldl dailyCustStep []
  let top_customers := (sortDesc DailyCust.total (alistValues customers)).take 3
  let payers := paymentsRes.2.2.foldl payerStep []
  let top_payers := (sortDesc Payer.total (alistValues payers)).take 3
  let avg_order := if orders_count > 0 then orders_total / orders_count else 0
  let avg_retail := if retail_count > 0 then retail_total / retail_count else 0
  let avg_total_sales :=
    if total_sales_count > 0 then total_sales_amount / total_sales_count else 0
  let avg_payment :=
    if payments_count > 0 then payments_total / payments_count else 0
  { date := dateStr,
    customer_orders := { count := orders_count, total := orders_total,
                         avg_order := avg_order },
    retail := { count := retail_count, total := retail_total,
                avg_order := avg_retail },
    total_sales := { count := total_sales_count, total := total_sales_amount,
                     avg_order := avg_total_sales },
    payments_count := payments_count,
    payments_total := payments_total,
    avg_payment := avg_payment,
    top_customers := top_customers,
    top_payers := top_payers,
    unique_customers := customers.length,
    unique_payers := payers.length }

/-- The payment-conversion computation of `send_daily_summary`: the
percentage is produced only under the guard
`total_sales.count > 0 and total_sales.total > 0`; otherwise the line is
omitted (`none`). -/
def conversionLine (s : DailySummary) : Option ℚ :=
  if s.total_sales.count > 0 ∧ s.total_sales.total > 0 then
    some (s.payments_total / s.total_sales.total * 100)
  else none

/-! ### Calendar model and the period resolver -/

/-- A naive wall-clock datetime, second precision (Python `datetime`). -/
structure DT where
  year : Nat
  month : Nat
  day : Nat
  hour : Nat
  minute : Nat
  second : Nat
deriving DecidableEq

/-- Length of a month in the proleptic Gregorian calendar. -/
def daysInMonth (y m : Nat) : Nat :=
  if m = 2 then (if y % 4 = 0 ∧ (y % 100 ≠ 0 ∨ y % 400 = 0) then 29 else 28)
  else if m = 4 ∨ m = 6 ∨ m = 9 ∨ m = 11 then 30 else 31

/-- A datetime all of whose fields are in range (Python `datetime`
invariant; `MINYEAR = 1`). -/
def ValidDT (t : DT) : Prop :=
  1 ≤ t.year ∧ 1 ≤ t.month ∧ t.month ≤ 12 ∧ 1 ≤ t.day ∧
    t.day ≤ daysInMonth t.year t.month ∧
    t.hour < 24 ∧ t.minute < 60 ∧ t.second < 60

instance (t : DT) : Decidable (ValidDT t) := by
  unfold ValidDT; exact inferInstance

/-- Proleptic Gregorian day count of the date part (days since
0000-03-01, the civil-from-days era decomposition). -/
def dayNumber (t : DT) : Nat :=
  let ys := if t.month ≤ 2 then t.year - 1 else t.year
  let mp := if t.month ≤ 2 then t.month + 9 else t.month - 3
  (ys / 400) * 146097 + (ys % 400) * 365 + (ys % 400) / 4 - (ys % 400) / 100 +
    ((153 * mp + 2) / 5 + t.day - 1)

/-- Total seconds of a datetime, for chronological comparison. -/
def toSeconds (t : DT) : Nat :=
  dayNumber t * 86400 + t.hour * 3600 + t.minute * 60 + t.second

/-- Python `datetime.weekday()`: Monday is 0. -/
def weekday (t : DT) : Nat := (dayNumber t + 2) % 7

/-- The previous calendar day, keeping the time of day. -/
def predDay (t : DT) : DT :=
  if 2 ≤ t.day then { t with day := t.day - 1 }
  else if 2 ≤ t.month then
    { t with month := t.month - 1, day := daysInMonth t.year (t.month - 1) }
  else { t with year := t.year - 1, month := 12, day := 31 }

/-- `t - timedelta(days = k)` on a naive datetime. -/
def subDays : Nat → DT → DT
  | 0, t => t
  | k + 1, t => subDays k (predDay t)

/-- `dt.replace(hour=0, minute=0, second=0, microsecond=0)`. -/
def replaceMidnight (t : DT) : DT :=
  { t with hour := 0, minute := 0, second := 0 }

/-- strftime `'%Y-%m-%d %H:%M:%S'`. -/
def formatDT (t : DT) : String :=
  pad4 t.year ++ "-" ++ pad2 t.month ++ "-" ++ pad2 t.day ++ " " ++
    pad2 t.hour ++ ":" ++ pad2 t.minute ++ ":" ++ pad2 t.second

/-- strftime `'%d.%m.%Y'` (the display / scratch-state date format). -/
def formatDMY (t : DT) : String :=
  pad2 t.day ++ "." ++ pad2 t.month ++ "." ++ pad4 t.year

/-- The datetime pair computed by `get_period_dates` before formatting:
`today` keeps the current day, `week` goes back `weekday()` days, `month`
moves to day 1, anything else goes back 30 days; the end is always `now`. -/
def get_period_dates_dt (period : String) (now : DT) : DT × DT :=
  if period = "today" then (replaceMidnight now, now)
  else if period = "week" then (replaceMidnight (subDays (weekday now) now), now)
  else if period = "month" then
    ({ now with day := 1, hour := 0, minute := 0, second := 0 }, now)
  else (subDays 30 now, now)

/-- `get_period_dates`: both endpoints rendered as
`'%Y-%m-%d %H:%M:%S'`. -/
def get_period_dates (period : String) (now : DT) : String × String :=
  let p := get_period_dates_dt period now
  (formatDT p.1, formatDT p.2)

/-! ### Date parsing (`datetime.strptime` over the five accepted forms) -/

/-- Construct a date-only datetime, validating the calendar fields
(`datetime(...)` raising `ValueError` models as `none`). -/
def mkDate (y m d : Nat) : Option DT :=
  if ValidDT { year := y, month := m, day := d, hour := 0, minute := 0,
               second := 0 } then
    some { year := y, month := m, day := d, hour := 0, minute := 0, second := 0 }
  else none

/-- strptime with pattern day-month-year4 and the given separator
(`'%d.%m.%Y'`, `'%d/%m/%Y'`, `'%d-%m-%Y'`; `%Y` matches exactly 4
digits). -/
def parseDMY4 (sep : Char) (s : String) : Option DT :=
  match strSplit sep s with
  | [ds, ms, ys] => do
    let d ← parseNatUpTo 2 ds
    let m ← parseNatUpTo 2 ms
    let y ← parseNatExact 4 ys
    mkDate y m d
  | _ => none

/-- strptime `'%d.%m.%y'`: exactly two year digits, 00-68 mapping to
2000-2068. -/
def parseDMY2 (s : String) : Option DT :=
  match strSplit '.' s with
  | [ds, ms, ys] => do
    let d ← parseNatUpTo 2 ds
    let m ← parseNatUpTo 2 ms
    let y2 ← parseNatExact 2 ys
    mkDate (if y2 ≤ 68 then 2000 + y2 else 1900 + y2) m d
  | _ => none

/-- strptime `'%Y-%m-%d'` (`%Y` matches exactly 4 digits). -/
def parseYMD (s : String) : Option DT :=
  match strSplit '-' s with
  | [ys, ms, ds] => do
    let y ← parseNatExact 4 ys
    let m ← parseNatUpTo 2 ms
    let d ← parseNatUpTo 2 ds
    mkDate y m d
  | _ => none

/-- The date-format cascade of the period-entry handlers:
`['%d.%m.%Y', '%d.%m.%y', '%d/%m/%Y', '%Y-%m-%d', '%d-%m-%Y']`,
first match wins. -/
def parseDate5 (s : String) : Option DT :=
  (parseDMY4 '.' s) <|> (parseDMY2 s) <|> (parseDMY4 '/' s) <|>
    (parseYMD s) <|> (parseDMY4 '-' s)

/-! ### The end-date step of the period conversation flow -/

/-- `ConversationHandler` state constants: `PERIOD_START_DATE = 0`,
`PERIOD_END_DATE = 1`, `ConversationHandler.END = -1`. -/
def PERIOD_END_DATE : Int := 1

/-- `ConversationHandler.END`. -/
def CONV_END : Int := -1

/-- The invalid-format retry prompt of `handle_end_date`. -/
def invalidFormatMsg : String :=
  "❌ *Неверный формат даты!*\n\nПожалуйста, введите дату в формате ДД.ММ.ГГГГ\nНапример: 31.01.2024\n\nПопробуйте снова:"

/-- The missing-start-date error of `handle_end_date`. -/
def noStartMsg : String :=
  "❌ *Ошибка: не найдена начальная дата!*\n\nНачните заново командой /period"

/-- The rejection emitted when the end date is before the start date,
naming both dates. -/
def endBeforeStartMsg (startStr endStr : String) : String :=
  "❌ *Конечная дата не может быть раньше начальной!*\n\nНачальная дата: " ++
    startStr ++ "\nКонечная дата: " ++ endStr ++
    "\n\nПожалуйста, введите конечную дату заново:"

/-- The generic exception reply of `handle_end_date` (the dynamic
`str(e)` tail is abstracted away). -/
def endDateExceptionMsg : String :=
  "❌ *Ошибка при обработке даты!*\n\nПожалуйста, введите дату в формате ДД.ММ.ГГГГ\nНапример: 31.01.2024"

/-- The loading placeholder. -/
def loadingMsg : String := "⏳ *Загружаю статистику...*"

/-- Marker for the outbound `send_period_statistics` call with its API and
display date arguments. -/
def periodReportCall (startApi endApi startDisp endDisp : String) : String :=
  "send_period_statistics " ++ startApi ++ " " ++ endApi ++ " " ++ startDisp ++
    " " ++ endDisp

/-- Result of one conversation-handler invocation: the returned state, the
emitted messages in order, and the `period_start_date` scratch value
afterwards. -/
structure HandlerResult where
  state : Int
  replies : List String
  period_start_date : Option String
deriving DecidableEq

/-- `handle_end_date`: parse the input against the five formats (retry in
place on failure); recover the stored start date (abort to `END` if it is
gone); re-parse it (the exception path retries in place); reject an end
date strictly before the start date, retrying in place with the stored
start untouched; otherwise clear the scratch state and emit the report. -/
def handle_end_date (text : String) (stored : Option String) : HandlerResult :=
  let user_input := strStrip text
  match parseDate5 user_input with
  | none => { state := PERIOD_END_DATE, replies := [invalidFormatMsg],
              period_start_date := stored }
  | some endD =>
    match stored with
    | none => { state := CONV_END, replies := [noStartMsg],
                period_start_date := none }
    | some startStr =>
      match parseDMY4 '.' startStr with
      | none => { state := PERIOD_END_DATE, replies := [endDateExceptionMsg],
                  period_start_date := stored }
      | some startD =>
        if toSeconds endD < toSeconds startD then
          { state := PERIOD_END_DATE,
            replies := [endBeforeStartMsg startStr (formatDMY endD)],
            period_start_date := stored }
        else
          { state := CONV_END,
            replies := [loadingMsg,
              periodReportCall
                (formatDT startD)
                (formatDT { endD with hour := 23, minute := 59, second := 59 })
                startStr (formatDMY endD)],
            period_start_date := none }

/-! ### Auxiliary predicates used by the claims -/

/-- Lexicographic comparison of character lists by code point. -/
def charListLe : List Char → List Char → Bool
  | [], _ => true
  | _ :: _, [] => false
  | x :: xs, y :: ys =>
    if x.toNat < y.toNat then true
    else if y.toNat < x.toNat then false
    else charListLe xs ys

/-- Lexicographic order on strings (by code point). -/
def strLexLe (a b : String) : Bool := charListLe a.data b.data

/-- The tie-break property asserted of a ranking: among entries with equal
totals, the lexicographically smaller id comes first. -/
def tieLexOrdered (l : List CustEntry) : Prop :=
  l.Pairwise (fun x y => x.total = y.total → strLexLe x.id y.id = true)

/-- Counterexample input: two single-order counterparties, ids `"b"` then
`"a"`, with equal totals. -/
def c4orders : List NormRec :=
  [{ id := "o1", moment := "", sum := 100,
     agent := some { id := "b", name := "B", phone := "Не указан",
                     email := "Не указан" } },
   { id := "o2", moment := "", sum := 100,
     agent := some { id := "a", name := "A", phone := "Не указан",
                     email := "Не указан" } }]

/-- The top-customers ranking produced on the counterexample input. -/
def c4tops : List CustEntry :=
  (get_sales_stats_with_retail (2, 200, c4orders) (0, 0, [])).top_customers

/-- The full period-resolver property of the three keywords: `today` maps
to (midnight of the current day, now); `week` to (a Monday at midnight,
at most 6 days back — the most recent Monday — , now); `month` to (the
first of the current month at midnight, now); each range is ordered, each
endpoint is rendered with `'%Y-%m-%d %H:%M:%S'`, and the end is the
current time to the second. -/
def PeriodDatesSpec (now : DT) : Prop :=
  (get_period_dates_dt "today" now =
      ({ now with hour := 0, minute := 0, second := 0 }, now)) ∧
  ((get_period_dates_dt "week" now).2 = now ∧
    weekday (get_period_dates_dt "week" now).1 = 0 ∧
    (get_period_dates_dt "week" now).1.hour = 0 ∧
    (get_period_dates_dt "week" now).1.minute = 0 ∧
    (get_period_dates_dt "week" now).1.second = 0 ∧
    ValidDT (get_period_dates_dt "week" now).1 ∧
    dayNumber now - dayNumber (get_period_dates_dt "week" now).1 = weekday now ∧
    dayNumber now < dayNumber (get_period_dates_dt "week" now).1 + 7) ∧
  (get_period_dates_dt "month" now =
      ({ now with day := 1, hour := 0, minute := 0, second := 0 }, now)) ∧
  (toSeconds (get_period_dates_dt "today" now).1 ≤ toSeconds now ∧
    toSeconds (get_period_dates_dt "week" now).1 ≤ toSeconds now ∧
    toSeconds (get_period_dates_dt "month" now).1 ≤ toSeconds now) ∧
  (get_period_dates "today" now =
      (formatDT (get_period_dates_dt "today" now).1, formatDT now) ∧
    get_period_dates "week" now =
      (formatDT (get_period_dates_dt "week" now).1, formatDT now) ∧
    get_period_dates "month" now =
      (formatDT (get_period_dates_dt "month" now).1, formatDT now))

/-! ### Helper lemmas about the row loop -/

theorem processRows_count (norm : RawRow → β) (rows : List RawRow) :
    (processRows norm rows).1 = (processRows norm rows).2.2.length := by
  induction rows with
  | nil => rfl
  | cons r rs ih =>
    simp only [processRows]
    by_cases h : sumTruthy r.sum
    · simp [h, ih]
    · simp [h, ih]

theorem processRows_total (norm : RawRow → β) (f : β → ℚ)
    (hf : ∀ r, f (norm r) = amountQ r.sum) (rows : List RawRow) :
    (processRows norm rows).2.1 = ((processRows norm rows).2.2.map f).sum := by
  induction rows with
  | nil => simp [processRows]
  | cons r rs ih =>
    simp only [processRows]
    by_cases h : sumTruthy r.sum
    · simp [h, ih, hf]
    · simp [h, ih]

theorem processRows_skip (norm : RawRow → β) (z : RawRow)
    (hz : sumTruthy z.sum = false) (pre post : List RawRow) :
    processRows norm (pre ++ z :: post) = processRows norm (pre ++ post) := by
  induction pre with
  | nil => simp [processRows, hz]
  | cons r rs ih =>
    by_cases h : sumTruthy r.sum <;>
      simp [processRows, h, ih, List.append_eq]

/-! ### Helper lemmas about association lists and the grouping -/

theorem alistModify_values_mem (k : String) (f : α → α)
    (l : List (String × α)) :
    ∀ c ∈ alistValues (alistModify k f l),
      c ∈ alistValues l ∨ ∃ u, u ∈ alistValues l ∧ c = f u := by
  induction l with
  | nil => simp [alistModify, alistValues]
  | cons p rest ih =>
    intro c hc
    by_cases hk : p.1 = k
    · simp only [alistModify, hk, if_pos, alistValues, List.map_cons,
        List.mem_cons] at hc
      rcases hc with hc | hc
      · exact Or.inr ⟨p.2, by simp [alistValues], hc⟩
      · exact Or.inl (by simp [alistValues]; right; simpa [alistValues] using hc)
    · simp only [alistModify, hk, if_neg, not_false_iff, alistValues,
        List.map_cons, List.mem_cons] at hc
      rcases hc with hc | hc
      · exact Or.inl (by simp [alistValues, hc])
      · rcases ih c (by simpa [alistValues] using hc) with h | ⟨u, hu, hcu⟩
        · exact Or.inl (by simp [alistValues] at h ⊢; exact Or.inr h)
        · exact Or.inr ⟨u, by simp [alistValues] at hu ⊢; exact Or.inr hu, hcu⟩

theorem alistFind_none_modify_append (k : String) (v : α) (f : α → α)
    (l : List (String × α)) (h : alistFind k l = none) :
    alistModify k f (l ++ [(k, v)]) = l ++ [(k, f v)] := by
  induction l with
  | nil => simp [alistModify]
  | cons p rest ih =>
    by_cases hk : p.1 = k
    · simp [alistFind, hk] at h
    · simp only [alistFind, hk, if_neg, not_false_iff] at h
      simp [alistModify, hk, ih h]

theorem ordersStep_pos (acc : List (String × CustEntry)) (order : NormRec)
    (h : ∀ c ∈ alistValues acc, 1 ≤ c.orders) :
    ∀ c ∈ alistValues (ordersStep acc order), 1 ≤ c.orders := by
  intro c hc
  cases hagent : order.agent with
  | none => simp only [ordersStep, hagent] at hc; exact h c hc
  | some a =>
    simp only [ordersStep, hagent] at hc
    cases hfind : alistFind a.id acc with
    | some u =>
      simp only [hfind] at hc
      rcases alistModify_values_mem _ _ _ c hc with hmem | ⟨u2, hu2, hcu⟩
      · exact h c hmem
      · subst hcu; simp
    | none =>
      simp only [hfind] at hc
      rw [alistFind_none_modify_append _ _ _ _ hfind] at hc
      simp only [alistValues, List.map_append, List.mem_append] at hc
      rcases hc with hc | hc
      · exact h c hc
      · simp at hc; subst hc; simp

theorem ordersCustomers_pos (l : List NormRec) :
    ∀ c ∈ alistValues (ordersCustomers l), 1 ≤ c.orders := by
  have main : ∀ (l : List NormRec) (acc : List (String × CustEntry)),
      (∀ c ∈ alistValues acc, 1 ≤ c.orders) →
      ∀ c ∈ alistValues (l.foldl ordersStep acc), 1 ≤ c.orders := by
    intro l
    induction l with
    | nil => intro acc hacc; simpa using hacc
    | cons o rest ih =>
      intro acc hacc
      exact ih (ordersStep acc o) (ordersStep_pos acc o hacc)
  exact main l [] (by simp [alistValues])

/-! ### Helper lemmas about the stable descending sort -/

theorem mem_insertDesc (key : α → ℚ) (x : α) (l : List α) :
    ∀ a ∈ insertDesc key x l, a = x ∨ a ∈ l := by
  induction l with
  | nil => simp [insertDesc]
  | cons y ys ih =>
    intro a ha
    simp only [insertDesc] at ha
    by_cases hxy : key x < key y
    · rw [if_pos hxy] at ha
      rcases List.mem_cons.1 ha with h | h
      · exact Or.inr (by simp [h])
      · rcases ih a h with h2 | h2
        · exact Or.inl h2
        · exact Or.inr (by simp [h2])
    · rw [if_neg hxy] at ha
      rcases List.mem_cons.1 ha with h | h
      · exact Or.inl h
      · exact Or.inr h

theorem pairwise_insertDesc (key : α → ℚ) (x : α) (l : List α)
    (h : l.Pairwise (fun a b => key b ≤ key a)) :
    (insertDesc key x l).Pairwise (fun a b => key b ≤ key a) := by
  induction l with
  | nil => simp [insertDesc]
  | cons y ys ih =>
    rcases List.pairwise_cons.1 h with ⟨hy, hys⟩
    simp only [insertDesc]
    by_cases hxy : key x < key y
    · rw [if_pos hxy]
      refine List.pairwise_cons.2 ⟨?_, ih hys⟩
      intro b hb
      rcases mem_insertDesc key x ys b hb with hb2 | hb2
      · exact hb2 ▸ le_of_lt hxy
      · exact hy b hb2
    · rw [if_neg hxy]
      refine List.pairwise_cons.2 ⟨?_, h⟩
      intro b hb
      rcases List.mem_cons.1 hb with hb2 | hb2
      · exact hb2 ▸ le_of_not_lt hxy
      · exact le_trans (hy b hb2) (le_of_not_lt hxy)

theorem sortDesc_pairwise (key : α → ℚ) (l : List α) :
    (sortDesc key l).Pairwise (fun a b => key b ≤ key a) := by
  induction l with
  | nil => simp [sortDesc]
  | cons x xs ih => exact pairwise_insertDesc key x _ ih

theorem insertDesc_split (key : α → ℚ) (x : α) (l : List α) :
    ∃ l1 l2, insertDesc key x l = l1 ++ x :: l2 ∧ l1 ++ l2 = l ∧
      ∀ b ∈ l1, key x < key b := by
  induction l with
  | nil => exact ⟨[], [], rfl, rfl, by simp⟩
  | cons y ys ih =>
    by_cases hxy : key x < key y
    · rcases ih with ⟨l1, l2, he, hl, hgt⟩
      refine ⟨y :: l1, l2, ?_, by simp [hl], ?_⟩
      · simp [insertDesc, hxy, he]
      · intro b hb
        rcases List.mem_cons.1 hb with hb | hb
        · exact hb ▸ hxy
        · exact hgt b hb
    · exact ⟨[], y :: ys, by simp [insertDesc, hxy], rfl, by simp⟩

theorem filter_insertDesc (key : α → ℚ) (q : ℚ) (x : α) (l : List α) :
    (insertDesc key x l).filter (fun e => key e = q) =
      if key x = q then x :: l.filter (fun e => key e = q)
      else l.filter (fun e => key e = q) := by
  rcases insertDesc_split key x l with ⟨l1, l2, he, hl, hgt⟩
  have h1 : l1.filter (fun e => key e = q) = [] ∨ key x ≠ q := by
    by_cases hx : key x = q
    · left
      rw [List.filter_eq_nil_iff]
      intro b hb
      have := hgt b hb
      simp only [decide_eq_true_eq]
      intro hbq
      rw [hx] at this
      exact absurd hbq (ne_of_gt this)
    · right; exact hx
  rw [he, ← hl]
  by_cases hx : key x = q
  · rcases h1 with h1 | h1
    · simp [List.filter_append, h1, hx]
    · exact absurd hx h1
  · simp [List.filter_append, hx]

/-! ### Helper lemmas about the calendar -/

theorem predDay_hour (t : DT) : (predDay t).hour = t.hour := by
  unfold predDay; split_ifs <;> rfl

theorem predDay_minute (t : DT) : (predDay t).minute = t.minute := by
  unfold predDay; split_ifs <;> rfl

theorem predDay_second (t : DT) : (predDay t).second = t.second := by
  unfold predDay; split_ifs <;> rfl

set_option maxHeartbeats 2000000 in
theorem dayNumber_predDay (t : DT) (h : ValidDT t) (h307 : 307 ≤ dayNumber t) :
    ValidDT (predDay t) ∧ dayNumber (predDay t) + 1 = dayNumber t := by
  obtain ⟨y, m, d, hh, mi, ss⟩ := t
  obtain ⟨hy, hm1, hm2, hd1, hd2, hhh, hmm, hss⟩ := h
  simp only at hy hm1 hm2 hd1 hd2 hhh hmm hss
  unfold daysInMonth at hd2
  unfold dayNumber at h307
  simp only at h307
  unfold predDay dayNumber daysInMonth ValidDT
  simp only
  interval_cases m <;>
    (norm_num at h307 hd2 ⊢) <;>
    (try split_ifs at h307 hd2 ⊢) <;>
    (try norm_num [daysInMonth] at *) <;>
    (try split_ifs at *) <;>
    (try norm_num at *) <;>
    omega

theorem subDays_spec : ∀ (k : Nat) (t : DT), ValidDT t → 306 + k ≤ dayNumber t →
    ValidDT (subDays k t) ∧ dayNumber (subDays k t) + k = dayNumber t ∧
      (subDays k t).hour = t.hour ∧ (subDays k t).minute = t.minute ∧
      (subDays k t).second = t.second := by
  intro k
  induction k with
  | zero => intro t h _; exact ⟨h, rfl, rfl, rfl, rfl⟩
  | succ n ih =>
    intro t h hk
    have h307 : 307 ≤ dayNumber t := by omega
    obtain ⟨hv, he⟩ := dayNumber_predDay t h h307
    have hk2 : 306 + n ≤ dayNumber (predDay t) := by omega
    obtain ⟨v2, e2, vh, vm, vs⟩ := ih (predDay t) hv hk2
    have hstep : subDays (n + 1) t = subDays n (predDay t) := rfl
    refine ⟨by rw [hstep]; exact v2, by rw [hstep]; omega, ?_, ?_, ?_⟩
    · rw [hstep, vh, predDay_hour]
    · rw [hstep, vm, predDay_minute]
    · rw [hstep, vs, predDay_second]

theorem dayNumber_ge306 (t : DT) (h : ValidDT t) : 306 ≤ dayNumber t := by
  obtain ⟨y, m, d, hh, mi, ss⟩ := t
  obtain ⟨hy1, hm1, hm2, hd1, hd2, _, _, _⟩ := h
  simp only at hy1 hm1 hm2 hd1 hd2
  unfold dayNumber
  simp only
  split_ifs <;> omega

theorem weekday_dayNumber_le (t : DT) (h : ValidDT t) :
    306 + weekday t ≤ dayNumber t := by
  have h306 := dayNumber_ge306 t h
  unfold weekday
  omega

theorem daysInMonth_pos (y m : Nat) : 1 ≤ daysInMonth y m := by
  unfold daysInMonth; split_ifs <;> omega

theorem dayNumber_replaceMidnight (t : DT) :
    dayNumber (replaceMidnight t) = dayNumber t := rfl

theorem weekday_le (t : DT) : weekday t ≤ 6 := by
  unfold weekday; omega

theorem validDT_replaceMidnight (t : DT) (h : ValidDT t) :
    ValidDT (replaceMidnight t) := by
  obtain ⟨y, m, d, hh, mi, ss⟩ := t
  obtain ⟨h1, h2, h3, h4, h5, _, _, _⟩ := h
  refine ⟨h1, h2, h3, h4, h5, ?_, ?_, ?_⟩ <;> norm_num [replaceMidnight]

theorem toSeconds_replaceMidnight (t : DT) :
    toSeconds (replaceMidnight t) = dayNumber t * 86400 := by
  obtain ⟨y, m, d, hh, mi, ss⟩ := t
  show dayNumber ⟨y, m, d, 0, 0, 0⟩ * 86400 + 0 * 3600 + 0 * 60 + 0 =
    dayNumber ⟨y, m, d, hh, mi, ss⟩ * 86400
  have hdn : dayNumber ⟨y, m, d, 0, 0, 0⟩ = dayNumber ⟨y, m, d, hh, mi, ss⟩ := rfl
  rw [hdn]
  omega

theorem sortDesc_filter (key : α → ℚ) (q : ℚ) (l : List α) :
    (sortDesc key l).filter (fun e => key e = q) =
      l.filter (fun e => key e = q) := by
  induction l with
  | nil => rfl
  | cons x xs ih =>
    show ((insertDesc key x (sortDesc key xs)).filter _) = _
    rw [filter_insertDesc]
    by_cases hx : key x = q
    · simp [hx, ih]
    · simp [hx, ih]

theorem countP_partition (cs : List CustEntry)
    (hpos : ∀ c ∈ cs, 1 ≤ c.orders) :
    cs.countP (fun c => c.orders = 1) + cs.countP (fun c => c.orders > 1) =
      cs.length := by
  induction cs with
  | nil => rfl
  | cons c rest ih =>
    have hc := hpos c (by simp)
    have hrest := ih (fun x hx => hpos x (by simp [hx]))
    simp only [List.countP_cons, List.length_cons]
    split_ifs <;> (try simp only [decide_eq_true_eq] at *) <;> omega

/-! ### The claims -/

/-- Claim C1: for all lists of normalized customer-order and retail-sale
records, the combined summary satisfies
`total_sales.total = customer_orders.total + retail.total` and
`total_sales.count = customer_orders.count + retail.count`, where each
subset's total is the sum of its records' amounts and each count is its
cardinality (as the fetches indeed produce, last two conjuncts). -/
theorem claim_C1 (odata rdata : List NormRec) :
    let s := get_sales_stats_with_retail
      (odata.length, (odata.map NormRec.sum).sum, odata)
      (rdata.length, (rdata.map NormRec.sum).sum, rdata)
    (s.total_sales.total = s.customer_orders.total + s.retail.total ∧
      s.total_sales.count = s.customer_orders.count + s.retail.count ∧
      s.customer_orders.total = (odata.map NormRec.sum).sum ∧
      s.customer_orders.count = odata.length ∧
      s.retail.total = (rdata.map NormRec.sum).sum ∧
      s.retail.count = rdata.length) ∧
    (∀ (resolve : String → Except Unit (Nat × AgentFull)) (rows : List RawRow),
      (get_customer_orders_data resolve (Except.ok ⟨200, some rows⟩)).1 =
        (get_customer_orders_data resolve
          (Except.ok ⟨200, some rows⟩)).2.2.length ∧
      (get_customer_orders_data resolve (Except.ok ⟨200, some rows⟩)).2.1 =
        ((get_customer_orders_data resolve
          (Except.ok ⟨200, some rows⟩)).2.2.map NormRec.sum).sum) ∧
    (∀ rows : List RawRow,
      (get_retail_sales_data (Except.ok ⟨200, some rows⟩)).1 =
        (get_retail_sales_data (Except.ok ⟨200, some rows⟩)).2.2.length ∧
      (get_retail_sales_data (Except.ok ⟨200, some rows⟩)).2.1 =
        ((get_retail_sales_data
          (Except.ok ⟨200, some rows⟩)).2.2.map NormRec.sum).sum) := by
  intro s
  refine ⟨⟨rfl, rfl, rfl, rfl, rfl, rfl⟩, ?_, ?_⟩
  · intro resolve rows
    have hshape : get_customer_orders_data resolve (Except.ok ⟨200, some rows⟩) =
        processRows (normOrderRow resolve) rows := by
      simp [get_customer_orders_data, fetchData]
    rw [hshape]
    exact ⟨processRows_count _ rows,
      processRows_total _ NormRec.sum (fun r => rfl) rows⟩
  · intro rows
    have hshape : get_retail_sales_data (Except.ok ⟨200, some rows⟩) =
        processRows normRetailRow rows := by
      simp [get_retail_sales_data, fetchData]
    rw [hshape]
    exact ⟨processRows_count _ rows,
      processRows_total _ NormRec.sum (fun r => rfl) rows⟩

/-- Claim C2: every averaged field of every component equals the total
divided by the count when the count is positive and the zero decimal when
the count is zero (the division is guarded, so no division-by-zero fault
occurs), in `get_sales_stats_with_retail` and `get_daily_summary`. -/
theorem claim_C2 (oRes rRes : Nat × ℚ × List NormRec) (dateStr : String)
    (pRes : Nat × ℚ × List PaymentRec) :
    let s := get_sales_stats_with_retail oRes rRes
    let d := get_daily_summary dateStr oRes rRes pRes
    s.customer_orders.avg_order =
      (if s.customer_orders.count > 0 then
        s.customer_orders.total / (s.customer_orders.count : ℚ) else 0) ∧
    s.retail.avg_order =
      (if s.retail.count > 0 then
        s.retail.total / (s.retail.count : ℚ) else 0) ∧
    s.total_sales.avg_order =
      (if s.total_sales.count > 0 then
        s.total_sales.total / (s.total_sales.count : ℚ) else 0) ∧
    d.customer_orders.avg_order =
      (if d.customer_orders.count > 0 then
        d.customer_orders.total / (d.customer_orders.count : ℚ) else 0) ∧
    d.retail.avg_order =
      (if d.retail.count > 0 then
        d.retail.total / (d.retail.count : ℚ) else 0) ∧
    d.total_sales.avg_order =
      (if d.total_sales.count > 0 then
        d.total_sales.total / (d.total_sales.count : ℚ) else 0) ∧
    d.avg_payment =
      (if d.payments_count > 0 then
        d.payments_total / (d.payments_count : ℚ) else 0) := by
  exact ⟨rfl, rfl, rfl, rfl, rfl, rfl, rfl⟩

/-- Claim C3: the new/returning classification partitions the
per-counterparty grouping of the customer orders exhaustively and
disjointly — every grouped counterparty has at least one order and lies in
exactly one of the two lists (one order ⟺ new, more than one ⟺
returning), and `new_customers + returning_customers = customer_count`. -/
theorem claim_C3 (odata : List NormRec) (oc : Nat) (ot : ℚ)
    (rRes : Nat × ℚ × List NormRec) :
    let s := get_sales_stats_with_retail (oc, ot, odata) rRes
    let cs := alistValues (ordersCustomers odata)
    (∀ c ∈ cs, 1 ≤ c.orders) ∧
    (∀ c ∈ cs, (c ∈ s.new_customers_list ∧ c ∉ s.returning_customers_list) ∨
      (c ∉ s.new_customers_list ∧ c ∈ s.returning_customers_list)) ∧
    (∀ c ∈ cs, c ∈ s.new_customers_list ↔ c.orders = 1) ∧
    (∀ c ∈ cs, c ∈ s.returning_customers_list ↔ 1 < c.orders) ∧
    s.new_customers + s.returning_customers = s.customer_count ∧
    s.customer_count = cs.length := by
  intro s cs
  have hpos := ordersCustomers_pos odata
  have hmemN : ∀ c, c ∈ s.new_customers_list ↔ (c ∈ cs ∧ c.orders = 1) := by
    intro c
    show c ∈ cs.filter (fun c => c.orders = 1) ↔ _
    rw [List.mem_filter]
    simp
  have hmemR : ∀ c, c ∈ s.returning_customers_list ↔ (c ∈ cs ∧ 1 < c.orders) := by
    intro c
    show c ∈ cs.filter (fun c => c.orders > 1) ↔ _
    rw [List.mem_filter]
    simp
  refine ⟨hpos, ?_, ?_, ?_, ?_, ?_⟩
  · intro c hc
    have h1 := hpos c hc
    by_cases he : c.orders = 1
    · exact Or.inl ⟨(hmemN c).2 ⟨hc, he⟩, fun hr => by
        have := ((hmemR c).1 hr).2; omega⟩
    · exact Or.inr ⟨fun hn => by have := ((hmemN c).1 hn).2; omega,
        (hmemR c).2 ⟨hc, by omega⟩⟩
  · intro c hc
    rw [hmemN c]
    exact ⟨fun h => h.2, fun h => ⟨hc, h⟩⟩
  · intro c hc
    rw [hmemR c]
    exact ⟨fun h => h.2, fun h => ⟨hc, h⟩⟩
  · show cs.countP (fun c => c.orders = 1) +
      cs.countP (fun c => c.orders > 1) = (ordersCustomers odata).length
    rw [countP_partition cs hpos]
    exact List.length_map _ _
  · exact (List.length_map _ _).symm

/-- Input of the C3 witness: two orders of counterparty `a`
(100 and 50) and one of counterparty `b` (200). -/
def c3orders : List NormRec :=
  [{ id := "o1", moment := "", sum := 100,
     agent := some { id := "a", name := "A", phone := "Не указан",
                     email := "Не указан" } },
   { id := "o2", moment := "", sum := 50,
     agent := some { id := "a", name := "A", phone := "Не указан",
                     email := "Не указан" } },
   { id := "o3", moment := "", sum := 200,
     agent := some { id := "b", name := "B", phone := "Не указан",
                     email := "Не указан" } }]

/-- Witness for C3 at a concrete input: counterparty `a` (two orders,
total 150) is returning, and the counts add up. -/
theorem claim_C3_witness :
    ({ id := "a", name := "A", phone := "Не указан", email := "Не указан",
       orders := 2, total := 150 } : CustEntry) ∈
      (get_sales_stats_with_retail (3, 350, c3orders)
        (0, 0, [])).returning_customers_list ∧
    (get_sales_stats_with_retail (3, 350, c3orders) (0, 0, [])).new_customers +
      (get_sales_stats_with_retail (3, 350, c3orders)
        (0, 0, [])).returning_customers =
      (get_sales_stats_with_retail (3, 350, c3orders) (0, 0, [])).customer_count
    := by
  obtain ⟨h1, h2, h3, h4, h5, h6⟩ := claim_C3 c3orders 3 350 (0, 0, [])
  refine ⟨(h4 _ ?_).2 (by norm_num), h5⟩
  set_option maxRecDepth 4000 in with_unfolding_all decide

/-- Counterexample for C4: on two equal-total counterparties grouped in
the order `"b"`, `"a"`, the ranking keeps `"b"` first — ties are NOT
broken by lexicographically smaller id. -/
theorem claim_C4_counterexample :
    c4tops.map CustEntry.id = ["b", "a"] ∧
    c4tops.map CustEntry.total = [100, 100] ∧
    ¬ tieLexOrdered c4tops := by
  refine ⟨by with_unfolding_all decide, by with_unfolding_all decide, ?_⟩
  unfold tieLexOrdered
  with_unfolding_all decide

/-- Claim C4 (amended): the top-customers ranking contains at most 10
entries and is sorted descending by each counterparty's summed total;
entries with equal totals keep the per-counterparty grouping
(first-appearance) order — the filtered-by-total prefix property — rather
than the lexicographic id order. -/
theorem claim_C4_amended (oRes rRes : Nat × ℚ × List NormRec) :
    let tops := (get_sales_stats_with_retail oRes rRes).top_customers
    tops.length ≤ 10 ∧
    tops.Pairwise (fun a b => b.total ≤ a.total) ∧
    ∀ q : ℚ, (tops.filter (fun c => c.total = q)).Sublist
      ((alistValues (ordersCustomers oRes.2.2)).filter (fun c => c.total = q))
    := by
  intro tops
  have hsorted := sortDesc_pairwise CustEntry.total
    (alistValues (ordersCustomers oRes.2.2))
  refine ⟨List.length_take_le _ _, ?_, ?_⟩
  · exact List.Pairwise.sublist (List.take_sublist _ _) hsorted
  · intro q
    have h1 : (tops.filter (fun c => c.total = q)).Sublist
        ((sortDesc CustEntry.total
          (alistValues (ordersCustomers oRes.2.2))).filter
            (fun c => c.total = q)) :=
      (List.take_sublist _ _).filter _
    rw [sortDesc_filter] at h1
    exact h1

/-- Claim C6: the period resolver maps `today` to
[midnight of the current day, now], `week` to
[the most recent Monday at midnight, now] (Monday = weekday 0) and
`month` to [the first of the current month at midnight, now], formats both
endpoints as `YYYY-MM-DD HH:MM:SS`, and always has start ≤ end with the
end equal to the current time to the second. -/
theorem claim_C6 (now : DT) (h : ValidDT now) : PeriodDatesSpec now := by
  have hge := weekday_dayNumber_le now h
  have hwd : weekday now ≤ 6 := weekday_le now
  obtain ⟨hv, he, hhh, hmm, hss⟩ :=
    subDays_spec (weekday now) now h (by omega)
  have htoday : get_period_dates_dt "today" now =
      ({ now with hour := 0, minute := 0, second := 0 }, now) := by
    simp [get_period_dates_dt, replaceMidnight]
  have hweek1 : (get_period_dates_dt "week" now).1 =
      replaceMidnight (subDays (weekday now) now) := by
    simp [get_period_dates_dt]
  have hweek2 : (get_period_dates_dt "week" now).2 = now := by
    simp [get_period_dates_dt]
  have hmonth : get_period_dates_dt "month" now =
      ({ now with day := 1, hour := 0, minute := 0, second := 0 }, now) := by
    simp [get_period_dates_dt]
  have hmono : dayNumber
      { now with day := 1, hour := 0, minute := 0, second := 0 } ≤
      dayNumber now := by
    obtain ⟨y, m, d, hh2, mi2, ss2⟩ := now
    obtain ⟨_, _, _, hd1, _, _, _, _⟩ := h
    simp only at hd1
    unfold dayNumber
    simp only
    split_ifs <;> omega
  refine ⟨htoday, ⟨hweek2, ?_, ?_, ?_, ?_, ?_, ?_, ?_⟩, hmonth,
    ⟨?_, ?_, ?_⟩, rfl, rfl, rfl⟩
  · rw [hweek1]
    show (dayNumber (replaceMidnight (subDays (weekday now) now)) + 2) % 7 = 0
    rw [dayNumber_replaceMidnight]
    unfold weekday at he ⊢
    omega
  · rw [hweek1]; rfl
  · rw [hweek1]; rfl
  · rw [hweek1]; rfl
  · rw [hweek1]; exact validDT_replaceMidnight _ hv
  · rw [hweek1, dayNumber_replaceMidnight]; omega
  · rw [hweek1, dayNumber_replaceMidnight]; omega
  · rw [htoday]
    show toSeconds (replaceMidnight now) ≤ toSeconds now
    rw [toSeconds_replaceMidnight]
    unfold toSeconds
    omega
  · rw [hweek1, toSeconds_replaceMidnight]
    unfold toSeconds
    omega
  · rw [hmonth]
    show toSeconds { now with day := 1, hour := 0, minute := 0, second := 0 } ≤
      toSeconds now
    unfold toSeconds
    obtain ⟨y, m, d, hh2, mi2, ss2⟩ := now
    simp only at hmono ⊢
    omega

/-- Witness for C6 at the concrete instant 2024-05-15 12:30:45 (a
Wednesday). -/
theorem claim_C6_witness :
    ValidDT ⟨2024, 5, 15, 12, 30, 45⟩ ∧
      PeriodDatesSpec ⟨2024, 5, 15, 12, 30, 45⟩ :=
  ⟨by decide, claim_C6 ⟨2024, 5, 15, 12, 30, 45⟩ (by decide)⟩

/-- Claim C7: in the awaiting-end-date state, a validly parsed end date
strictly earlier than the stored start date returns to the same state,
leaves the stored start date unchanged, and emits a rejection naming both
dates — the dates are never silently swapped. -/
theorem claim_C7 (text startStr : String) (endD startD : DT)
    (hEnd : parseDate5 (strStrip text) = some endD)
    (hStored : parseDMY4 '.' startStr = some startD)
    (hlt : toSeconds endD < toSeconds startD) :
    handle_end_date text (some startStr) =
      { state := PERIOD_END_DATE,
        replies := [endBeforeStartMsg startStr (formatDMY endD)],
        period_start_date := some startStr } ∧
    PERIOD_END_DATE ≠ CONV_END ∧
    (∃ s1 s2 s3, endBeforeStartMsg startStr (formatDMY endD) =
      s1 ++ startStr ++ s2 ++ formatDMY endD ++ s3) := by
  refine ⟨?_, by decide, ?_⟩
  · unfold handle_end_date
    simp only [hEnd, hStored]
    rw [if_pos hlt]
  · exact ⟨"❌ *Конечная дата не может быть раньше начальной!*\n\nНачальная дата: ",
      "\nКонечная дата: ",
      "\n\nПожалуйста, введите конечную дату заново:", rfl⟩

/-- Witness for C7: start date 31.01.2024 stored, end date 01.01.2024
entered. -/
theorem claim_C7_witness :
    handle_end_date "01.01.2024" (some "31.01.2024") =
      { state := PERIOD_END_DATE,
        replies := [endBeforeStartMsg "31.01.2024"
          (formatDMY ⟨2024, 1, 1, 0, 0, 0⟩)],
        period_start_date := some "31.01.2024" } :=
  (claim_C7 "01.01.2024" "31.01.2024" ⟨2024, 1, 1, 0, 0, 0⟩
    ⟨2024, 1, 31, 0, 0, 0⟩ (by decide) (by decide) (by decide)).1

/-- Claim C8: every fetch returns the empty result `(0, 0, [])` on a
non-200 status or a transport exception, identical to the result for a
successful response with no rows — a failed fetch is indistinguishable
from zero activity. -/
theorem claim_C8 (resolve : String → Except Unit (Nat × AgentFull))
    (r : ApiResponse) (hr : r.status ≠ 200) :
    (get_customer_orders_data resolve (Except.ok r) = (0, 0, []) ∧
      get_customer_orders_data resolve (Except.error ()) = (0, 0, []) ∧
      get_customer_orders_data resolve (Except.ok ⟨200, some []⟩) =
        (0, 0, [])) ∧
    (get_retail_sales_data (Except.ok r) = (0, 0, []) ∧
      get_retail_sales_data (Except.error ()) = (0, 0, []) ∧
      get_retail_sales_data (Except.ok ⟨200, some []⟩) = (0, 0, [])) ∧
    (get_debug_sales_data (Except.ok r) = (0, 0, []) ∧
      get_debug_sales_data (Except.error ()) = (0, 0, []) ∧
      get_debug_sales_data (Except.ok ⟨200, some []⟩) = (0, 0, [])) ∧
    (get_incoming_payments_data (Except.ok r) = (0, 0, []) ∧
      get_incoming_payments_data (Except.error ()) = (0, 0, []) ∧
      get_incoming_payments_data (Except.ok ⟨200, some []⟩) = (0, 0, [])) := by
  have hfail : ∀ (β : Type) (norm : RawRow → β),
      fetchData norm (Except.ok r) = (0, 0, []) := by
    intro β norm
    simp [fetchData, hr]
  exact ⟨⟨hfail _ _, rfl, rfl⟩, ⟨hfail _ _, rfl, rfl⟩,
    ⟨hfail _ _, rfl, rfl⟩, ⟨hfail _ _, rfl, rfl⟩⟩

/-- Witness for C8: a 500 response and a transport error both yield the
empty customer-orders result. -/
theorem claim_C8_witness :
    get_customer_orders_data (fun _ => Except.error ())
      (Except.ok ⟨500, none⟩) = (0, 0, []) ∧
    get_incoming_payments_data (Except.ok ⟨500, none⟩) = (0, 0, []) := by
  obtain ⟨⟨h1, _, _⟩, _, _, ⟨h4, _, _⟩⟩ :=
    claim_C8 (fun _ => Except.error ()) ⟨500, none⟩ (by decide)
  exact ⟨h1, h4⟩

/-- Claim C9: the daily digest ranks at most 3 top customers and at most
3 top payers, both descending by summed total; the payment-conversion
percentage `payments.total / total_sales.total * 100` is produced only
when the sales total is nonzero, and is omitted when it is zero, so no
division-by-zero fault occurs. -/
theorem claim_C9 (dateStr : String) (oRes rRes : Nat × ℚ × List NormRec)
    (pRes : Nat × ℚ × List PaymentRec) :
    let d := get_daily_summary dateStr oRes rRes pRes
    d.top_customers.length ≤ 3 ∧
    d.top_customers.Pairwise (fun a b => b.total ≤ a.total) ∧
    d.top_payers.length ≤ 3 ∧
    d.top_payers.Pairwise (fun a b => b.total ≤ a.total) ∧
    (d.total_sales.total = 0 → conversionLine d = none) ∧
    (∀ q, conversionLine d = some q →
      d.total_sales.total ≠ 0 ∧
        q = d.payments_total / d.total_sales.total * 100) := by
  intro d
  have hc := sortDesc_pairwise DailyCust.total
    (alistValues (oRes.2.2.foldl dailyCustStep []))
  have hp := sortDesc_pairwise Payer.total
    (alistValues (pRes.2.2.foldl payerStep []))
  refine ⟨List.length_take_le _ _,
    List.Pairwise.sublist (List.take_sublist _ _) hc,
    List.length_take_le _ _,
    List.Pairwise.sublist (List.take_sublist _ _) hp, ?_, ?_⟩
  · intro h0
    unfold conversionLine
    rw [if_neg]
    intro hcond
    rw [h0] at hcond
    exact absurd hcond.2 (lt_irrefl 0)
  · intro q hq
    unfold conversionLine at hq
    by_cases hcond : d.total_sales.count > 0 ∧ d.total_sales.total > 0
    · rw [if_pos hcond] at hq
      exact ⟨ne_of_gt hcond.2, (Option.some.injEq _ _ ▸ hq.symm :)⟩
    · rw [if_neg hcond] at hq
      exact absurd hq (by simp)

/-- Witness for C9: on empty inputs the sales total is zero and the
conversion line is omitted; the rankings are within bounds. -/
theorem claim_C9_witness :
    conversionLine (get_daily_summary "15.05.2024" (0, 0, []) (0, 0, [])
      (0, 0, [])) = none ∧
    (get_daily_summary "15.05.2024" (0, 0, []) (0, 0, [])
      (0, 0, [])).top_customers.length ≤ 3 := by
  obtain ⟨h1, h2, h3, h4, h5, h6⟩ :=
    claim_C9 "15.05.2024" (0, 0, []) (0, 0, []) (0, 0, [])
  exact ⟨h5 (by with_unfolding_all decide), h1⟩

/-- Claim C10: in all four fetch normalizations a raw row with an absent
or zero `sum` is skipped — it contributes to neither the count, the
total, the record list, nor (for orders) the grouping, the customer count
or the new/returning partition. -/
theorem claim_C10 (resolve : String → Except Unit (Nat × AgentFull))
    (pre post : List RawRow) (z : RawRow) (hz : sumTruthy z.sum = false) :
    processRows (normOrderRow resolve) (pre ++ z :: post) =
      processRows (normOrderRow resolve) (pre ++ post) ∧
    processRows normRetailRow (pre ++ z :: post) =
      processRows normRetailRow (pre ++ post) ∧
    processRows normDemandRow (pre ++ z :: post) =
      processRows normDemandRow (pre ++ post) ∧
    processRows normPaymentRow (pre ++ z :: post) =
      processRows normPaymentRow (pre ++ post) ∧
    get_customer_orders_data resolve
        (Except.ok ⟨200, some (pre ++ z :: post)⟩) =
      get_customer_orders_data resolve (Except.ok ⟨200, some (pre ++ post)⟩) ∧
    (∀ rRes : Nat × ℚ × List NormRec,
      get_sales_stats_with_retail
          (get_customer_orders_data resolve
            (Except.ok ⟨200, some (pre ++ z :: post)⟩)) rRes =
        get_sales_stats_with_retail
          (get_customer_orders_data resolve
            (Except.ok ⟨200, some (pre ++ post)⟩)) rRes) := by
  have ho := processRows_skip (normOrderRow resolve) z hz pre post
  have hfetch : get_customer_orders_data resolve
      (Except.ok ⟨200, some (pre ++ z :: post)⟩) =
      get_customer_orders_data resolve (Except.ok ⟨200, some (pre ++ post)⟩) := by
    show fetchData _ _ = fetchData _ _
    unfold fetchData
    norm_num [ho]
  refine ⟨ho, processRows_skip normRetailRow z hz pre post,
    processRows_skip normDemandRow z hz pre post,
    processRows_skip normPaymentRow z hz pre post, hfetch, ?_⟩
  intro rRes
  rw [hfetch]

/-- Witness for C10: a zero-amount order row alone yields the same fetch
result as no rows at all. -/
theorem claim_C10_witness :
    processRows (normOrderRow (fun _ => Except.error ()))
      ([] ++ ({ id := "z", moment := none, sum := some 0, agent := none,
                paymentTypeName := none } : RawRow) :: []) =
    processRows (normOrderRow (fun _ => Except.error ())) ([] ++ []) :=
  (claim_C10 (fun _ => Except.error ()) [] []
    { id := "z", moment := none, sum := some 0, agent := none,
      paymentTypeName := none } (by decide)).1

end Roza
